import Mathlib

/-!
Verification of the IP-resolution core of the `get-ip` service.

The repository ships several concatenated revisions of `src/index.ts`; the
final, most complete revision (the one with the full trust-ordered header
list `cf-connecting-ip`, `true-client-ip`, `x-real-ip`, `x-client-ip`,
`x-cluster-client-ip`, `x-forwarded-for`, `x-original-forwarded-for`, the raw
peer address, and the public-address fallback resolver) is the code embedded
here.  Strings are modelled as lists of characters (`Str`); JavaScript string
truthiness (`!s` is true for `undefined` and `""`) is modelled explicitly.
-/

namespace GetIp

/-- JavaScript strings are modelled as lists of characters. -/
abbrev Str := List Char

/-- Convenience conversion from Lean string literals. -/
def str (s : String) : Str := s.data

/-- `split(sep)` on character lists: always returns at least one part, the
separator characters are dropped.  Mirrors JavaScript `String.split` with a
single-character separator. -/
def splitOnChar (sep : Char) : Str → List Str
  | [] => [[]]
  | c :: rest =>
    let r := splitOnChar sep rest
    if c = sep then [] :: r
    else
      match r with
      | [] => [[c]]
      | h :: t => (c :: h) :: t

/-- `p.isPrefixOf l` on character lists; mirrors JavaScript `startsWith`. -/
def prefixOf : Str → Str → Bool
  | [], _ => true
  | _ :: _, [] => false
  | a :: as, b :: bs => a = b && prefixOf as bs

/-- JavaScript `includes("::")`: some occurrence of two consecutive colons. -/
def hasDoubleColon : Str → Bool
  | ':' :: ':' :: _ => true
  | _ :: rest => hasDoubleColon rest
  | [] => false

/-- JavaScript `String.trim`: strip whitespace from both ends. -/
def trim (l : Str) : Str :=
  ((l.dropWhile Char.isWhitespace).reverse.dropWhile Char.isWhitespace).reverse

/-- Numeric value of a digit character. -/
def digitVal (c : Char) : Nat := c.toNat - 48

/-- JavaScript `Number(...)` restricted to all-digit strings (the only way it
is applied by the source: on the octets of an already validated IPv4
string). -/
def strToNat (l : Str) : Nat := l.foldl (fun a c => a * 10 + digitVal c) 0

/-- The regex character class `[0-9]` (codepoints 48–57). -/
def digit (c : Char) : Bool := decide (48 ≤ c.toNat) && decide (c.toNat ≤ 57)

/-- The regex character class `[0-9a-fA-F]`. -/
def hexDigit (c : Char) : Bool :=
  digit c || (decide (97 ≤ c.toNat) && decide (c.toNat ≤ 102))
    || (decide (65 ≤ c.toNat) && decide (c.toNat ≤ 70))

/-- One octet of the IPv4 regex: the alternation
`25[0-5] | 2[0-4][0-9] | [01]?[0-9][0-9]?` as a full-segment match
(character classes written by codepoint: '0' = 48, '1' = 49, '2' = 50,
'4' = 52, '5' = 53). -/
def octetAlt : Str → Bool
  | [a] => digit a
  | [a, b] => digit a && digit b
  | [a, b, c] =>
    (decide (a.toNat = 50) && decide (b.toNat = 53)
        && decide (48 ≤ c.toNat) && decide (c.toNat ≤ 53))
    || (decide (a.toNat = 50) && decide (48 ≤ b.toNat) && decide (b.toNat ≤ 52)
        && digit c)
    || ((decide (a.toNat = 48) || decide (a.toNat = 49)) && digit b && digit c)
  | _ => false

/-- `isIPv4` from the source: test against the anchored regex
`^(?:octet\.){3}octet$`.  Since an octet never contains a dot, the regex
matches exactly when splitting on '.' yields four parts, each matching the
octet alternation. -/
def isIPv4 (ip : Str) : Bool :=
  let parts := splitOnChar '.' ip
  decide (parts.length = 4) && parts.all octetAlt

/-- One hextet of the IPv6 regex: `[0-9a-fA-F]{1,4}`. -/
def hextet (l : Str) : Bool :=
  decide (1 ≤ l.length) && decide (l.length ≤ 4) && l.all hexDigit

/-- The first alternative of the IPv6 regex: `^(?:h{1,4}:){7}h{1,4}$`,
expressed via splitting on ':' (a hextet never contains a colon). -/
def fullHextetIPv6 (l : Str) : Bool :=
  let parts := splitOnChar ':' l
  decide (parts.length = 8) && parts.all hextet

/-- `isIPv6` from the source: `ipv6Regex.test(ip) || ip.startsWith('::') ||
ip.includes('::')`.  The regex alternatives `^::1$`, `^::$` are kept
verbatim; the compressed alternative `^(h{1,4}:)*::(h{1,4}:)*h{1,4}$` always
contains the literal `::`, so every string it matches already satisfies the
`includes('::')` disjunct and the function value is unchanged by absorbing it
there. -/
def isIPv6 (ip : Str) : Bool :=
  fullHextetIPv6 ip || decide (ip = str "::1") || decide (ip = str "::")
    || prefixOf (str "::") ip || hasDoubleColon ip

/-- `isPrivateOrLocalIPv4` from the source. -/
def isPrivateOrLocalIPv4 (ip : Str) : Bool :=
  if !isIPv4 ip then false
  else
    let parts := (splitOnChar '.' ip).map strToNat
    let p0 := parts.getD 0 0
    let p1 := parts.getD 1 0
    -- Localhost (127.0.0.0/8)
    decide (p0 = 127)
    -- 10.0.0.0/8
    || decide (p0 = 10)
    -- 172.16.0.0/12
    || (decide (p0 = 172) && decide (16 ≤ p1) && decide (p1 ≤ 31))
    -- 192.168.0.0/16
    || (decide (p0 = 192) && decide (p1 = 168))
    -- Link-local (169.254.0.0/16)
    || (decide (p0 = 169) && decide (p1 = 254))

/-- `isPrivateOrLocalIPv6` from the source. -/
def isPrivateOrLocalIPv6 (ip : Str) : Bool :=
  if !isIPv6 ip then false
  else
    decide (ip = str "::1")
    || prefixOf (str "fc") ip || prefixOf (str "fd") ip
    || prefixOf (str "fe80:") ip
    || prefixOf (str "::") ip

/-- The `version` field of `IPInfo`. -/
inductive IPVersion where
  | IPv4
  | IPv6
  | Unknown
deriving DecidableEq, Repr

/-- The `IPInfo` interface: optional best candidate per family, the primary
address (sentinel `"Unknown"`), and the family of the primary. -/
structure IPInfo where
  ipv4 : Option Str
  ipv6 : Option Str
  primary : Str
  version : IPVersion
deriving DecidableEq, Repr

/-- JavaScript falsiness of an optional string: `undefined` or `""`. -/
def optFalsy : Option Str → Bool
  | none => true
  | some s => s.isEmpty

/-- `shouldPrioritizeIP(newIP, currentIP)` from the source.  `currentIP` may
be `undefined` (here `none`). -/
def shouldPrioritizeIP (newIP : Str) (currentIP : Option Str) : Bool :=
  match currentIP with
  | none => true
  | some cur =>
    if cur.isEmpty || decide (cur = str "Unknown") then true
    else
      let newIsIPv4 := isIPv4 newIP
      let currentIsIPv4 := isIPv4 cur
      if newIsIPv4 && currentIsIPv4 then
        let newIsPrivate := isPrivateOrLocalIPv4 newIP
        let currentIsPrivate := isPrivateOrLocalIPv4 cur
        if !newIsPrivate && currentIsPrivate then true
        else if newIsPrivate && !currentIsPrivate then false
        else false
      else if !newIsIPv4 && !currentIsIPv4 then
        let newIsPrivate := isPrivateOrLocalIPv6 newIP
        let currentIsPrivate := isPrivateOrLocalIPv6 cur
        if !newIsPrivate && currentIsPrivate then true
        else if newIsPrivate && !currentIsPrivate then false
        else false
      else if newIsIPv4 && !currentIsIPv4 then true
      else false

/-- The candidate cleaning step of `processIP`: strip a literal `::ffff:`
IPv4-in-IPv6 prefix (`ip.startsWith('::ffff:') ? ip.substring(7) : ip`). -/
def cleanIP (ip : Str) : Str :=
  if prefixOf (str "::ffff:") ip then ip.drop 7 else ip

/-- `processIP` from `getClientIP`, as a state transformer on the result
object. -/
def processIP (result : IPInfo) (ip : Str) : IPInfo :=
  if ip.isEmpty || decide (ip = str "Unknown") then result
  else if isIPv4 (cleanIP ip) then
    let r1 :=
      if optFalsy result.ipv4 || shouldPrioritizeIP (cleanIP ip) result.ipv4
      then { result with ipv4 := some (cleanIP ip) } else result
    if shouldPrioritizeIP (cleanIP ip) (some r1.primary)
    then { r1 with primary := cleanIP ip, version := IPVersion.IPv4 } else r1
  else if isIPv6 ip then
    let r1 :=
      if optFalsy result.ipv6 || shouldPrioritizeIP ip result.ipv6
      then { result with ipv6 := some ip } else result
    if shouldPrioritizeIP ip (some r1.primary)
    then { r1 with primary := ip, version := IPVersion.IPv6 } else r1
  else result

/-- The inbound request as seen by the extractor: each trust-ordered header
read as an optional single string value, plus the raw transport peer
address. -/
structure Request where
  cfConnectingIP : Option Str
  trueClientIP : Option Str
  realIP : Option Str
  xClientIP : Option Str
  xClusterClientIP : Option Str
  forwarded : Option Str
  xOriginalForwardedFor : Option Str
  remoteAddress : Option Str
deriving Repr

/-- One `if (header) { processIP(header) }` step of `getClientIP`. -/
def processHeader (r : IPInfo) (h : Option Str) : IPInfo :=
  match h with
  | none => r
  | some s => if s.isEmpty then r else processIP r s

/-- One comma-separated-list header step of `getClientIP`:
`const ips = h.split(',').map(ip => ip.trim());
 if (ips.length > 0 && ips[0]) { processIP(ips[0]); }`. -/
def processForwardedList (r : IPInfo) (h : Option Str) : IPInfo :=
  match h with
  | none => r
  | some s =>
    if s.isEmpty then r
    else
      match (splitOnChar ',' s).map trim with
      | [] => r
      | first :: _ => if first.isEmpty then r else processIP r first

/-- The freshly constructed result object. -/
def emptyResult : IPInfo :=
  { ipv4 := none, ipv6 := none, primary := str "Unknown"
    version := IPVersion.Unknown }

/-- `getClientIP` from the source: fold the candidates into the result in
trust-priority order. -/
def getClientIP (req : Request) : IPInfo :=
  let r0 := emptyResult
  -- 1. Cloudflare CF-Connecting-IP
  let r1 := processHeader r0 req.cfConnectingIP
  -- 2. True-Client-IP
  let r2 := processHeader r1 req.trueClientIP
  -- 3. X-Real-IP
  let r3 := processHeader r2 req.realIP
  -- 4. X-Client-IP
  let r4 := processHeader r3 req.xClientIP
  -- 5. X-Cluster-Client-IP
  let r5 := processHeader r4 req.xClusterClientIP
  -- 6. X-Forwarded-For (first entry only)
  let r6 := processForwardedList r5 req.forwarded
  -- 7. X-Original-Forwarded-For (first entry only)
  let r7 := processForwardedList r6 req.xOriginalForwardedFor
  -- 8. Raw connection remote address
  let r8 := processHeader r7 req.remoteAddress
  r8

/-- `hasOnlyPrivateIPs` from the source (JavaScript truthiness of the
optional string fields made explicit). -/
def hasOnlyPrivateIPs (ipInfo : IPInfo) : Bool :=
  let hasPublicIPv4 :=
    match ipInfo.ipv4 with
    | some v => !v.isEmpty && !isPrivateOrLocalIPv4 v
    | none => false
  let hasPublicIPv6 :=
    match ipInfo.ipv6 with
    | some v => !v.isEmpty && !isPrivateOrLocalIPv6 v
    | none => false
  !hasPublicIPv4 && !hasPublicIPv6
    && ((match ipInfo.ipv4 with | some v => !v.isEmpty | none => false)
        || (match ipInfo.ipv6 with | some v => !v.isEmpty | none => false))

/-- Outcome of one outbound request to a fallback service: any timeout,
network error, non-2xx status or thrown exception is `failure`; otherwise the
plain-text body. -/
inductive SvcResp where
  | failure
  | ok (body : Str)

/-- The per-service acceptance test of `getPublicIPFallback`:
`const ip = (await response.text()).trim();
 if (ip && isIPv4(ip) && !isPrivateOrLocalIPv4(ip)) return ip;`. -/
def tryService (resp : SvcResp) : Option Str :=
  match resp with
  | SvcResp.failure => none
  | SvcResp.ok body =>
    let ip := trim body
    if !ip.isEmpty && isIPv4 ip && !isPrivateOrLocalIPv4 ip then some ip
    else none

/-- The fixed, ordered fallback service list from the source. -/
def fallbackServices : List Str :=
  [str "https://api.ipify.org?format=text",
   str "https://ipinfo.io/ip",
   str "https://ifconfig.me/ip"]

/-- The `for (const service of services)` loop: first accepted response wins,
later services are not consulted. -/
def tryFallbackServices (net : Str → SvcResp) : List Str → Option Str
  | [] => none
  | svc :: rest =>
    match tryService (net svc) with
    | some ip => some ip
    | none => tryFallbackServices net rest

/-- `getPublicIPFallback` from the source, with the network modelled as a
mapping from service URL to response; every failure path yields `none`, no
error propagates. -/
def getPublicIPFallback (net : Str → SvcResp) : Option Str :=
  tryFallbackServices net fallbackServices

/-- The fallback merge performed by the route handlers:
`if (ENABLE_FALLBACK && hasOnlyPrivateIPs(ipInfo)) { const fallbackIP = await
getPublicIPFallback(); if (fallbackIP) { ipInfo = { ipv4: fallbackIP, ipv6:
ipInfo.ipv6, primary: fallbackIP, version: 'IPv4' }; } }`. -/
def applyFallback (enableFallback : Bool) (net : Str → SvcResp)
    (ipInfo : IPInfo) : IPInfo :=
  if enableFallback && hasOnlyPrivateIPs ipInfo then
    match getPublicIPFallback net with
    | some fallbackIP =>
      if !fallbackIP.isEmpty then
        { ipv4 := some fallbackIP, ipv6 := ipInfo.ipv6
          primary := fallbackIP, version := IPVersion.IPv4 }
      else ipInfo
    | none => ipInfo
  else ipInfo

end GetIp

namespace GetIp

/-! ### Basic facts about the string helpers -/

theorem splitOnChar_ne_nil (sep : Char) (l : Str) : splitOnChar sep l ≠ [] := by
  induction l with
  | nil => simp [splitOnChar]
  | cons c rest ih =>
    simp only [splitOnChar]
    by_cases hc : c = sep
    · simp [hc]
    · simp only [hc, if_false]
      cases hr : splitOnChar sep rest with
      | nil => simp
      | cons h t => simp

theorem splitOnChar_no_sep (sep : Char) (l : Str)
    (h : ∀ c ∈ l, c ≠ sep) : splitOnChar sep l = [l] := by
  induction l with
  | nil => rfl
  | cons c rest ih =>
    have hc : c ≠ sep := h c (List.mem_cons_self _ _)
    have hrest : splitOnChar sep rest = [rest] :=
      ih (fun x hx => h x (List.mem_cons_of_mem _ hx))
    simp [splitOnChar, hc, hrest]

theorem splitOnChar_append (sep : Char) (l rest : Str)
    (h : ∀ c ∈ l, c ≠ sep) :
    splitOnChar sep (l ++ sep :: rest) = l :: splitOnChar sep rest := by
  induction l with
  | nil => simp [splitOnChar]
  | cons c l' ih =>
    have hc : c ≠ sep := h c (List.mem_cons_self _ _)
    have hih : splitOnChar sep (l' ++ sep :: rest) = l' :: splitOnChar sep rest :=
      ih (fun x hx => h x (List.mem_cons_of_mem _ hx))
    simp [splitOnChar, hc, hih]

theorem prefixOf_append_self (p l : Str) : prefixOf p (p ++ l) = true := by
  induction p with
  | nil => rfl
  | cons a as ih => simp [prefixOf, ih]

theorem prefixOf_cons {c : Char} {p l : Str} (h : prefixOf (c :: p) l = true) :
    ∃ t, l = c :: t := by
  cases l with
  | nil => simp [prefixOf] at h
  | cons b bs =>
    simp only [prefixOf, Bool.and_eq_true, decide_eq_true_eq] at h
    exact ⟨bs, by rw [h.1]⟩

theorem dropWhile_all_neg {p : Char → Bool} {l : Str}
    (h : ∀ c ∈ l, p c = false) : l.dropWhile p = l := by
  cases l with
  | nil => rfl
  | cons c rest => simp [List.dropWhile, h c (List.mem_cons_self _ _)]

theorem trim_all_nonws {l : Str}
    (h : ∀ c ∈ l, Char.isWhitespace c = false) : trim l = l := by
  unfold trim
  rw [dropWhile_all_neg h]
  rw [dropWhile_all_neg (fun c hc => h c (List.mem_reverse.mp hc))]
  exact List.reverse_reverse l

/-! ### Character facts about validated IPv4 strings -/

theorem octetAlt_chars {l : Str} (h : octetAlt l = true) :
    ∀ c ∈ l, digit c = true := by
  match l with
  | [a] =>
    intro c hc
    simp only [List.mem_singleton] at hc
    subst hc
    simpa [octetAlt] using h
  | [a, b] =>
    simp only [octetAlt, Bool.and_eq_true] at h
    intro c hc
    rcases List.mem_pair.mp hc with rfl | rfl
    · exact h.1
    · exact h.2
  | [a, b, c] =>
    simp only [octetAlt, digit, Bool.or_eq_true, Bool.and_eq_true,
      decide_eq_true_eq] at h
    intro x hx
    simp only [List.mem_cons, List.mem_singleton, List.not_mem_nil,
      or_false] at hx
    simp only [digit, Bool.and_eq_true, decide_eq_true_eq]
    rcases hx with rfl | rfl | rfl <;> omega
  | [] => simp [octetAlt] at h
  | _ :: _ :: _ :: _ :: _ => simp [octetAlt] at h

theorem splitOnChar_chars {sep : Char} {q : Char → Bool} :
    ∀ l : Str, (∀ p ∈ splitOnChar sep l, p.all q = true) →
      ∀ c ∈ l, q c = true ∨ c = sep := by
  intro l
  induction l with
  | nil => intro _ c hc; simp at hc
  | cons a rest ih =>
    intro h c hc
    by_cases ha : a = sep
    · subst ha
      rw [show splitOnChar a (a :: rest) = [] :: splitOnChar a rest by
        simp [splitOnChar]] at h
      rcases List.mem_cons.mp hc with rfl | hc'
      · exact Or.inr rfl
      · exact ih (fun p hp => h p (List.mem_cons_of_mem _ hp)) c hc'
    · cases hr : splitOnChar sep rest with
      | nil => exact absurd hr (splitOnChar_ne_nil sep rest)
      | cons hd tl =>
        rw [show splitOnChar sep (a :: rest) = (a :: hd) :: tl by
          simp [splitOnChar, ha, hr]] at h
        have hahd : (a :: hd).all q = true := h _ (List.mem_cons_self _ _)
        simp only [List.all_cons, Bool.and_eq_true] at hahd
        have hrest : ∀ p ∈ splitOnChar sep rest, p.all q = true := by
          intro p hp
          rw [hr] at hp
          rcases List.mem_cons.mp hp with rfl | hp'
          · exact hahd.2
          · exact h p (List.mem_cons_of_mem _ hp')
        rcases List.mem_cons.mp hc with rfl | hc'
        · exact Or.inl hahd.1
        · exact ih hrest c hc'

theorem isIPv4_chars {l : Str} (h : isIPv4 l = true) :
    ∀ c ∈ l, digit c = true ∨ c = '.' := by
  simp only [isIPv4, Bool.and_eq_true, decide_eq_true_eq, List.all_eq_true] at h
  exact splitOnChar_chars l
    (fun p hp => List.all_eq_true.mpr (octetAlt_chars (h.2 p hp)))

end GetIp

namespace GetIp

theorem isEmpty_eq_false {l : Str} (h : l ≠ []) : l.isEmpty = false := by
  cases l with
  | nil => exact absurd rfl h
  | cons a t => rfl

theorem isIPv4_ne_nil {l : Str} (h : isIPv4 l = true) : l ≠ [] := by
  intro he
  subst he
  simp [isIPv4, splitOnChar] at h

theorem isIPv4_ne_unknown {l : Str} (h : isIPv4 l = true) :
    l ≠ str "Unknown" := by
  intro he
  rw [he] at h
  exact absurd h (by decide)

theorem isIPv4_not_ffff {l : Str} (h : isIPv4 l = true) :
    prefixOf (str "::ffff:") l = false := by
  cases hp : prefixOf (str "::ffff:") l with
  | false => rfl
  | true =>
    exfalso
    rw [show str "::ffff:" = ':' :: str ":ffff:" from rfl] at hp
    obtain ⟨t, rfl⟩ := prefixOf_cons hp
    rcases isIPv4_chars h ':' (List.mem_cons_self _ _) with hd | hd
    · exact absurd hd (by decide)
    · exact absurd hd (by decide)

theorem cleanIP_ipv4 {l : Str} (h : isIPv4 l = true) : cleanIP l = l := by
  simp [cleanIP, isIPv4_not_ffff h]

theorem isIPv4_cons_colon (t : Str) : isIPv4 (':' :: t) = false := by
  cases hp : isIPv4 (':' :: t) with
  | false => rfl
  | true =>
    exfalso
    rcases isIPv4_chars hp ':' (List.mem_cons_self _ _) with hd | hd
    · exact absurd hd (by decide)
    · exact absurd hd (by decide)

/-- If the cleaned candidate is not IPv4, neither is the raw candidate (the
only change `cleanIP` can make is stripping `::ffff:`, and a string with that
prefix starts with a colon). -/
theorem isIPv4_of_cleanIP {ip : Str} (h : isIPv4 (cleanIP ip) = false) :
    isIPv4 ip = false := by
  unfold cleanIP at h
  cases hp : prefixOf (str "::ffff:") ip with
  | false => simpa [hp] using h
  | true =>
    rw [show str "::ffff:" = ':' :: str ":ffff:" from rfl] at hp
    obtain ⟨t, rfl⟩ := prefixOf_cons hp
    exact isIPv4_cons_colon t

/-! ### Facts about `shouldPrioritizeIP` -/

theorem sP_none (x : Str) : shouldPrioritizeIP x none = true := rfl

theorem sP_unknown (x : Str) :
    shouldPrioritizeIP x (some (str "Unknown")) = true := by
  simp [shouldPrioritizeIP]

theorem sP_some_empty {x cur : Str} (h : cur.isEmpty = true) :
    shouldPrioritizeIP x (some cur) = true := by
  simp [shouldPrioritizeIP, h]

/-- The guard `!result.x || shouldPrioritizeIP(ip, result.x)` collapses to
the prioritisation test alone when the slot holds a string, because an empty
held string also makes `shouldPrioritizeIP` return true. -/
theorem cond_tie (x p : Str) :
    (optFalsy (some p) || shouldPrioritizeIP x (some p))
      = shouldPrioritizeIP x (some p) := by
  cases hp : p.isEmpty with
  | true => simp [optFalsy, hp, sP_some_empty hp]
  | false => simp [optFalsy, hp]

/-- A held public IPv4 value is never replaced, whatever the new candidate. -/
theorem sP_keep_public_v4 {new cur : Str} (h4 : isIPv4 cur = true)
    (hp : isPrivateOrLocalIPv4 cur = false) :
    shouldPrioritizeIP new (some cur) = false := by
  have hne : cur.isEmpty = false := isEmpty_eq_false (isIPv4_ne_nil h4)
  have hnu : cur ≠ str "Unknown" := isIPv4_ne_unknown h4
  cases hn : isIPv4 new <;> cases hpn : isPrivateOrLocalIPv4 new <;>
    simp [shouldPrioritizeIP, hne, hnu, h4, hp, hn, hpn]

/-- A held IPv4 value is never replaced by a non-IPv4 candidate. -/
theorem sP_keep_v4 {new cur : Str} (h4 : isIPv4 cur = true)
    (hn : isIPv4 new = false) :
    shouldPrioritizeIP new (some cur) = false := by
  have hne : cur.isEmpty = false := isEmpty_eq_false (isIPv4_ne_nil h4)
  have hnu : cur ≠ str "Unknown" := isIPv4_ne_unknown h4
  simp [shouldPrioritizeIP, hne, hnu, h4, hn]

/-- An IPv4 candidate always beats a held non-IPv4 value. -/
theorem sP_v4_over_v6 {new cur : Str} (hn : isIPv4 new = true)
    (hc : isIPv4 cur = false) (hnu : cur ≠ str "Unknown")
    (hne : cur.isEmpty = false) :
    shouldPrioritizeIP new (some cur) = true := by
  simp [shouldPrioritizeIP, hne, hnu, hn, hc]

end GetIp

namespace GetIp

theorem sP_false_not_empty {x p : Str}
    (h : shouldPrioritizeIP x (some p) = false) : p.isEmpty = false := by
  cases hp : p.isEmpty with
  | false => rfl
  | true => rw [sP_some_empty hp] at h; cases h

/-! ### The state invariant of the folded result -/

/-- Invariant maintained by `processIP` on the result object: the `version`
tag describes `primary`, `primary` is mirrored in the slot of its family, and
an IPv4 value, once held, owns `primary`. -/
def Inv (r : IPInfo) : Prop :=
  (r.version = IPVersion.Unknown →
    r.primary = str "Unknown" ∧ r.ipv4 = none ∧ r.ipv6 = none) ∧
  (r.version = IPVersion.IPv4 →
    r.ipv4 = some r.primary ∧ isIPv4 r.primary = true) ∧
  (r.version = IPVersion.IPv6 →
    r.ipv6 = some r.primary ∧ isIPv4 r.primary = false ∧
    r.primary ≠ str "Unknown" ∧ r.primary ≠ [] ∧ r.ipv4 = none)

theorem inv_empty : Inv emptyResult := by
  simp [Inv, emptyResult]

theorem processIP_inv {r : IPInfo} (ip : Str) (h : Inv r) :
    Inv (processIP r ip) := by
  by_cases hg : (ip.isEmpty || decide (ip = str "Unknown")) = true
  · simpa [processIP, hg] using h
  · rw [Bool.not_eq_true] at hg
    have hipne : ip ≠ [] := by intro he; subst he; simp at hg
    have hipnu : ip ≠ str "Unknown" := by intro he; subst he; simp at hg
    obtain ⟨hU, h4i, h6i⟩ := h
    by_cases h4c : isIPv4 (cleanIP ip) = true
    · cases hv : r.version with
      | Unknown =>
        obtain ⟨hpU, h40, h60⟩ := hU hv
        have e : processIP r ip =
            { r with
              ipv4 := some (cleanIP ip)
              primary := cleanIP ip
              version := IPVersion.IPv4 } := by
          simp [processIP, hg, h4c, h40, hpU, optFalsy, sP_unknown]
        rw [e]
        simp [Inv, h4c]
      | IPv4 =>
        obtain ⟨hv4, hp4⟩ := h4i hv
        by_cases hsp : shouldPrioritizeIP (cleanIP ip) (some r.primary) = true
        · have e : processIP r ip =
              { r with
                ipv4 := some (cleanIP ip)
                primary := cleanIP ip
                version := IPVersion.IPv4 } := by
            simp [processIP, hg, h4c, hv4, cond_tie, hsp]
          rw [e]
          simp [Inv, h4c]
        · rw [Bool.not_eq_true] at hsp
          have hemp := sP_false_not_empty hsp
          have e : processIP r ip = r := by
            simp [processIP, hg, h4c, hv4, optFalsy, hemp, hsp]
          rw [e]
          exact ⟨hU, h4i, h6i⟩
      | IPv6 =>
        obtain ⟨h6v, hnp4, hnuP, hneP, h40⟩ := h6i hv
        have hsp : shouldPrioritizeIP (cleanIP ip) (some r.primary) = true :=
          sP_v4_over_v6 h4c hnp4 hnuP (isEmpty_eq_false hneP)
        have e : processIP r ip =
            { r with
              ipv4 := some (cleanIP ip)
              primary := cleanIP ip
              version := IPVersion.IPv4 } := by
          simp [processIP, hg, h4c, h40, optFalsy, hsp]
        rw [e]
        simp [Inv, h4c]
    · have h4c' : isIPv4 (cleanIP ip) = false := by
        rwa [Bool.not_eq_true] at h4c
      have hnot4 : isIPv4 ip = false := isIPv4_of_cleanIP h4c'
      by_cases h6 : isIPv6 ip = true
      · cases hv : r.version with
        | Unknown =>
          obtain ⟨hpU, h40, h60⟩ := hU hv
          have e : processIP r ip =
              { r with
                ipv6 := some ip
                primary := ip
                version := IPVersion.IPv6 } := by
            simp [processIP, hg, h4c', h6, h60, hpU, optFalsy, sP_unknown]
          rw [e]
          simp [Inv, hnot4, hipnu, hipne, h40]
        | IPv4 =>
          obtain ⟨hv4, hp4⟩ := h4i hv
          have hsp : shouldPrioritizeIP ip (some r.primary) = false :=
            sP_keep_v4 hp4 hnot4
          by_cases hc6 : (optFalsy r.ipv6 || shouldPrioritizeIP ip r.ipv6)
              = true
          · have e : processIP r ip = { r with ipv6 := some ip } := by
              simp [processIP, hg, h4c', h6, hc6, hsp]
            rw [e]
            simp [Inv, hv, hv4, hp4]
          · rw [Bool.not_eq_true] at hc6
            have e : processIP r ip = r := by
              simp [processIP, hg, h4c', h6, hc6, hsp]
            rw [e]
            exact ⟨hU, h4i, h6i⟩
        | IPv6 =>
          obtain ⟨h6v, hnp4, hnuP, hneP, h40⟩ := h6i hv
          by_cases hsp : shouldPrioritizeIP ip (some r.primary) = true
          · have e : processIP r ip =
                { r with
                  ipv6 := some ip
                  primary := ip
                  version := IPVersion.IPv6 } := by
              simp [processIP, hg, h4c', h6, h6v, cond_tie, hsp]
            rw [e]
            simp [Inv, hnot4, hipnu, hipne, h40]
          · rw [Bool.not_eq_true] at hsp
            have hemp := sP_false_not_empty hsp
            have e : processIP r ip = r := by
              simp [processIP, hg, h4c', h6, h6v, optFalsy, hemp, hsp]
            rw [e]
            exact ⟨hU, h4i, h6i⟩
      · rw [Bool.not_eq_true] at h6
        have e : processIP r ip = r := by
          simp [processIP, hg, h4c', h6]
        rw [e]
        exact ⟨hU, h4i, h6i⟩

theorem processHeader_inv {r : IPInfo} (h : Option Str) (hr : Inv r) :
    Inv (processHeader r h) := by
  cases h with
  | none => exact hr
  | some s =>
    cases hs : s.isEmpty with
    | true => simpa [processHeader, hs] using hr
    | false => simpa [processHeader, hs] using processIP_inv s hr

theorem processForwardedList_inv {r : IPInfo} (h : Option Str) (hr : Inv r) :
    Inv (processForwardedList r h) := by
  cases h with
  | none => exact hr
  | some s =>
    cases hs : s.isEmpty with
    | true => simpa [processForwardedList, hs] using hr
    | false =>
      cases hsplit : (splitOnChar ',' s).map trim with
      | nil => simpa [processForwardedList, hs, hsplit] using hr
      | cons first rest =>
        cases hf : first.isEmpty with
        | true => simpa [processForwardedList, hs, hsplit, hf] using hr
        | false =>
          simpa [processForwardedList, hs, hsplit, hf] using
            processIP_inv first hr

theorem getClientIP_inv (req : Request) : Inv (getClientIP req) := by
  unfold getClientIP
  exact processHeader_inv _
    (processForwardedList_inv _
      (processForwardedList_inv _
        (processHeader_inv _
          (processHeader_inv _
            (processHeader_inv _
              (processHeader_inv _
                (processHeader_inv _ inv_empty)))))))

end GetIp

namespace GetIp

/-! ### Processing a valid IPv4 candidate into the fresh result -/

theorem processIP_empty_ipv4 {v : Str} (h : isIPv4 v = true) :
    processIP emptyResult v =
      { ipv4 := some v, ipv6 := none, primary := v
        version := IPVersion.IPv4 } := by
  have hne : v.isEmpty = false := isEmpty_eq_false (isIPv4_ne_nil h)
  have hnu : v ≠ str "Unknown" := isIPv4_ne_unknown h
  have hcl : cleanIP v = v := cleanIP_ipv4 h
  simp [processIP, hne, hnu, hcl, h, emptyResult, optFalsy, sP_unknown]

/-! ### A public IPv4 primary absorbs all later candidates -/

/-- The result holds a public IPv4 address as `primary`, mirrored in the
`ipv4` slot. -/
def PubV4 (r : IPInfo) : Prop :=
  isIPv4 r.primary = true ∧ isPrivateOrLocalIPv4 r.primary = false ∧
    r.ipv4 = some r.primary

theorem processIP_absorb {r : IPInfo} (ip : Str) (h : PubV4 r) :
    (processIP r ip).primary = r.primary ∧ (processIP r ip).ipv4 = r.ipv4 := by
  obtain ⟨h4, hp, hv⟩ := h
  have hsp : ∀ x : Str, shouldPrioritizeIP x (some r.primary) = false :=
    fun x => sP_keep_public_v4 h4 hp
  have hemp : r.primary.isEmpty = false := isEmpty_eq_false (isIPv4_ne_nil h4)
  by_cases hg : (ip.isEmpty || decide (ip = str "Unknown")) = true
  · simp [processIP, hg]
  · rw [Bool.not_eq_true] at hg
    by_cases h4c : isIPv4 (cleanIP ip) = true
    · have e : processIP r ip = r := by
        simp [processIP, hg, h4c, hv, optFalsy, hemp, hsp]
      rw [e]
      exact ⟨rfl, rfl⟩
    · rw [Bool.not_eq_true] at h4c
      by_cases h6 : isIPv6 ip = true
      · by_cases hc6 : (optFalsy r.ipv6 || shouldPrioritizeIP ip r.ipv6) = true
        · have e : processIP r ip = { r with ipv6 := some ip } := by
            simp [processIP, hg, h4c, h6, hc6, hsp]
          rw [e]
          exact ⟨rfl, rfl⟩
        · rw [Bool.not_eq_true] at hc6
          have e : processIP r ip = r := by
            simp [processIP, hg, h4c, h6, hc6, hsp]
          rw [e]
          exact ⟨rfl, rfl⟩
      · rw [Bool.not_eq_true] at h6
        have e : processIP r ip = r := by
          simp [processIP, hg, h4c, h6]
        rw [e]
        exact ⟨rfl, rfl⟩

theorem processIP_pubv4 {r : IPInfo} (ip : Str) (h : PubV4 r) :
    PubV4 (processIP r ip) ∧ (processIP r ip).primary = r.primary ∧
      (processIP r ip).ipv4 = r.ipv4 := by
  obtain ⟨hpr, hv4⟩ := processIP_absorb ip h
  exact ⟨⟨by rw [hpr]; exact h.1, by rw [hpr]; exact h.2.1,
    by rw [hv4, hpr]; exact h.2.2⟩, hpr, hv4⟩

theorem processHeader_pubv4 (h : Option Str) {r : IPInfo} (hr : PubV4 r) :
    PubV4 (processHeader r h) ∧ (processHeader r h).primary = r.primary ∧
      (processHeader r h).ipv4 = r.ipv4 := by
  cases h with
  | none => exact ⟨hr, rfl, rfl⟩
  | some s =>
    cases hs : s.isEmpty with
    | true =>
      have e : processHeader r (some s) = r := by simp [processHeader, hs]
      rw [e]
      exact ⟨hr, rfl, rfl⟩
    | false =>
      have e : processHeader r (some s) = processIP r s := by
        simp [processHeader, hs]
      rw [e]
      exact processIP_pubv4 s hr

theorem processForwardedList_pubv4 (h : Option Str) {r : IPInfo}
    (hr : PubV4 r) :
    PubV4 (processForwardedList r h) ∧
      (processForwardedList r h).primary = r.primary ∧
      (processForwardedList r h).ipv4 = r.ipv4 := by
  cases h with
  | none => exact ⟨hr, rfl, rfl⟩
  | some s =>
    cases hs : s.isEmpty with
    | true =>
      have e : processForwardedList r (some s) = r := by
        simp [processForwardedList, hs]
      rw [e]
      exact ⟨hr, rfl, rfl⟩
    | false =>
      cases hsplit : (splitOnChar ',' s).map trim with
      | nil =>
        have e : processForwardedList r (some s) = r := by
          simp [processForwardedList, hs, hsplit]
        rw [e]
        exact ⟨hr, rfl, rfl⟩
      | cons first rest =>
        cases hf : first.isEmpty with
        | true =>
          have e : processForwardedList r (some s) = r := by
            simp [processForwardedList, hs, hsplit, hf]
          rw [e]
          exact ⟨hr, rfl, rfl⟩
        | false =>
          have e : processForwardedList r (some s) = processIP r first := by
            simp [processForwardedList, hs, hsplit, hf]
          rw [e]
          exact processIP_pubv4 first hr

end GetIp

namespace GetIp

/-! ### The spec-side dotted-quad predicate (for the classifier claim) -/

/-- One decimal group of the spec's "strict dotted-quad form": one to three
decimal digits (a value between 0 and 255 needs at most three) whose numeric
value is at most 255. -/
def specOctet (l : Str) : Bool :=
  decide (1 ≤ l.length) && decide (l.length ≤ 3) && l.all digit
    && decide (strToNat l ≤ 255)

/-- The spec's "strict dotted-quad form": exactly four dot-separated decimal
groups, each with value 0 through 255, with nothing before or after. -/
def dottedQuad (l : Str) : Bool :=
  let parts := splitOnChar '.' l
  decide (parts.length = 4) && parts.all specOctet

theorem octetAlt_eq_specOctet (l : Str) : octetAlt l = specOctet l := by
  match l with
  | [] => rfl
  | [a] =>
    rw [Bool.eq_iff_iff]
    simp only [octetAlt, specOctet, strToNat, List.foldl, List.all_cons,
      List.all_nil, List.length_cons, List.length_nil, digit, digitVal,
      Bool.and_eq_true, Bool.and_true, decide_eq_true_eq]
    omega
  | [a, b] =>
    rw [Bool.eq_iff_iff]
    simp only [octetAlt, specOctet, strToNat, List.foldl, List.all_cons,
      List.all_nil, List.length_cons, List.length_nil, digit, digitVal,
      Bool.and_eq_true, Bool.and_true, decide_eq_true_eq]
    omega
  | [a, b, c] =>
    rw [Bool.eq_iff_iff]
    simp only [octetAlt, specOctet, strToNat, List.foldl, List.all_cons,
      List.all_nil, List.length_cons, List.length_nil, digit, digitVal,
      Bool.or_eq_true, Bool.and_eq_true, Bool.and_true, decide_eq_true_eq]
    omega
  | a :: b :: c :: d :: rest =>
    have hl : octetAlt (a :: b :: c :: d :: rest) = false := rfl
    have hb : decide ((rest.length + 1 + 1 + 1 + 1 : Nat) ≤ 3) = false :=
      decide_eq_false (by omega)
    have hr : specOctet (a :: b :: c :: d :: rest) = false := by
      simp only [specOctet, List.length_cons, hb, Bool.and_false,
        Bool.false_and]
    rw [hl, hr]

/-! ### Decimal rendering of octet values (for the 172.16/12 range claim) -/

/-- Canonical decimal rendering of a natural number, digit characters via
`Nat.digitChar`. -/
def natToStr (n : Nat) : Str :=
  if n < 10 then [Nat.digitChar n]
  else natToStr (n / 10) ++ [Nat.digitChar (n % 10)]
termination_by n
decreasing_by exact Nat.div_lt_self (by omega) (by omega)

theorem digitChar_digit {m : Nat} (h : m < 10) :
    digit (Nat.digitChar m) = true := by
  interval_cases m <;> rfl

theorem digitChar_val {m : Nat} (h : m < 10) :
    digitVal (Nat.digitChar m) = m := by
  interval_cases m <;> rfl

theorem natToStr_all_digit (n : Nat) : ∀ c ∈ natToStr n, digit c = true := by
  induction n using Nat.strong_induction_on with
  | _ n ih =>
    rw [natToStr]
    by_cases h : n < 10
    · simp only [h, if_true]
      intro c hc
      rw [List.mem_singleton.mp hc]
      exact digitChar_digit h
    · simp only [h, if_false]
      intro c hc
      rcases List.mem_append.mp hc with hc' | hc'
      · exact ih (n / 10) (Nat.div_lt_self (by omega) (by omega)) c hc'
      · rw [List.mem_singleton.mp hc']
        exact digitChar_digit (Nat.mod_lt n (by omega))

theorem strToNat_snoc (l : Str) (c : Char) :
    strToNat (l ++ [c]) = strToNat l * 10 + digitVal c := by
  simp [strToNat, List.foldl_append, List.foldl]

theorem strToNat_natToStr (n : Nat) : strToNat (natToStr n) = n := by
  induction n using Nat.strong_induction_on with
  | _ n ih =>
    rw [natToStr]
    by_cases h : n < 10
    · simp only [h, if_true]
      simp [strToNat, List.foldl, digitChar_val h]
    · simp only [h, if_false]
      rw [strToNat_snoc, ih (n / 10) (Nat.div_lt_self (by omega) (by omega)),
        digitChar_val (Nat.mod_lt n (by omega))]
      omega

theorem natToStr_len_one {n : Nat} (h : n < 10) :
    (natToStr n).length = 1 := by
  rw [natToStr]
  simp [h]

theorem natToStr_len_le_two {n : Nat} (h : n < 100) :
    (natToStr n).length ≤ 2 := by
  by_cases h10 : n < 10
  · rw [natToStr_len_one h10]
    omega
  · rw [natToStr]
    simp only [h10, if_false, List.length_append, List.length_cons,
      List.length_nil]
    have : (natToStr (n / 10)).length = 1 := natToStr_len_one (by omega)
    omega

theorem natToStr_len_le_three {n : Nat} (h : n < 1000) :
    (natToStr n).length ≤ 3 := by
  by_cases h10 : n < 10
  · rw [natToStr_len_one h10]
    omega
  · rw [natToStr]
    simp only [h10, if_false, List.length_append, List.length_cons,
      List.length_nil]
    have : (natToStr (n / 10)).length ≤ 2 := natToStr_len_le_two (by omega)
    omega

theorem natToStr_len_pos (n : Nat) : 1 ≤ (natToStr n).length := by
  rw [natToStr]
  by_cases h : n < 10
  · simp [h]
  · simp [h]

theorem natToStr_no_dot (n : Nat) : ∀ c ∈ natToStr n, c ≠ '.' := by
  intro c hc heq
  have hd := natToStr_all_digit n c hc
  rw [heq] at hd
  exact absurd hd (by decide)

/-- The dotted-quad rendering of four octet values. -/
def mkIP (a b c d : Nat) : Str :=
  natToStr a ++ '.' :: (natToStr b ++ '.' :: (natToStr c ++ '.' :: natToStr d))

theorem splitOnChar_mkIP (a b c d : Nat) :
    splitOnChar '.' (mkIP a b c d) =
      [natToStr a, natToStr b, natToStr c, natToStr d] := by
  unfold mkIP
  rw [splitOnChar_append _ _ _ (natToStr_no_dot a),
    splitOnChar_append _ _ _ (natToStr_no_dot b),
    splitOnChar_append _ _ _ (natToStr_no_dot c),
    splitOnChar_no_sep _ _ (natToStr_no_dot d)]

theorem specOctet_natToStr {n : Nat} (h : n ≤ 255) :
    specOctet (natToStr n) = true := by
  simp only [specOctet, Bool.and_eq_true, decide_eq_true_eq]
  refine ⟨⟨⟨natToStr_len_pos n, natToStr_len_le_three (by omega)⟩, ?_⟩, ?_⟩
  · exact List.all_eq_true.mpr (natToStr_all_digit n)
  · rw [strToNat_natToStr]
    exact h

theorem isIPv4_mkIP {a b c d : Nat} (ha : a ≤ 255) (hb : b ≤ 255)
    (hc : c ≤ 255) (hd : d ≤ 255) : isIPv4 (mkIP a b c d) = true := by
  simp only [isIPv4, splitOnChar_mkIP, List.length_cons, List.length_nil,
    List.all_cons, List.all_nil, Bool.and_eq_true, decide_eq_true_eq,
    Bool.and_true, octetAlt_eq_specOctet]
  exact ⟨trivial, specOctet_natToStr ha, specOctet_natToStr hb,
    specOctet_natToStr hc, specOctet_natToStr hd⟩

end GetIp

namespace GetIp

/-! ### Concrete requests used by the claims -/

/-- `getClientIP` written as a plain chain of processing steps. -/
theorem getClientIP_eq (req : Request) :
    getClientIP req =
      processHeader (processForwardedList (processForwardedList
        (processHeader (processHeader (processHeader (processHeader
          (processHeader emptyResult req.cfConnectingIP)
          req.trueClientIP) req.realIP) req.xClientIP) req.xClusterClientIP)
        req.forwarded) req.xOriginalForwardedFor) req.remoteAddress := rfl

/-- A request with no candidate sources at all. -/
def noReq : Request :=
  { cfConnectingIP := none, trueClientIP := none, realIP := none
    xClientIP := none, xClusterClientIP := none, forwarded := none
    xOriginalForwardedFor := none, remoteAddress := none }

def c1Req : Request := { noReq with forwarded := some (str "10.0.0.5, 8.8.8.8") }

def c2Req : Request :=
  { noReq with
    cfConnectingIP := some (str "8.8.8.8")
    forwarded := some (str "1.1.1.1") }

def c3CexReq : Request :=
  { noReq with
    cfConnectingIP := some (str "9.9.9.9")
    realIP := some (str "8.8.8.8")
    forwarded := some (str "1.1.1.1") }

def c3WitReq : Request :=
  { noReq with
    realIP := some (str "8.8.8.8")
    forwarded := some (str "1.1.1.1") }

/-! ### C1 -/

/-- C1: for every request whose `x-forwarded-for` header is a
comma-separated list, only the first entry is considered — everything after
the first comma is irrelevant to the processing step; in particular, with
only `x-forwarded-for: "10.0.0.5, 8.8.8.8"`, the result is exactly the
private `10.0.0.5` and `8.8.8.8` appears nowhere in it. -/
theorem c1_forwarded_first_entry_only :
    (∀ (r : IPInfo) (s t : Str), ',' ∉ s →
      processForwardedList r (some (s ++ ',' :: t))
        = processForwardedList r (some s)) ∧
    getClientIP c1Req =
      { ipv4 := some (str "10.0.0.5"), ipv6 := none
        primary := str "10.0.0.5", version := IPVersion.IPv4 } ∧
    isPrivateOrLocalIPv4 (str "10.0.0.5") = true := by
  refine ⟨?_, by decide, by decide⟩
  intro r s t hns
  have hno : ∀ c ∈ s, c ≠ ',' := fun c hc he => hns (he ▸ hc)
  have hsplit : splitOnChar ',' (s ++ ',' :: t) = s :: splitOnChar ',' t :=
    splitOnChar_append ',' s t hno
  cases s with
  | nil =>
    have h0 : splitOnChar ',' ((',' :: t : Str)) = [] :: splitOnChar ',' t := by
      simp [splitOnChar]
    simp [processForwardedList, h0, trim]
  | cons a s' =>
    have hone : splitOnChar ',' (a :: s') = [a :: s'] :=
      splitOnChar_no_sep ',' (a :: s') hno
    have hsplit' : splitOnChar ',' (a :: (s' ++ ',' :: t))
        = (a :: s') :: splitOnChar ',' t := by
      rw [← List.cons_append]
      exact hsplit
    simp [processForwardedList, hsplit', hone]

/-- Witness for C1 at the concrete header `"10.0.0.5, 8.8.8.8"`. -/
theorem c1_forwarded_first_entry_only_witness :
    processForwardedList emptyResult
        (some (str "10.0.0.5" ++ ',' :: str " 8.8.8.8"))
      = processForwardedList emptyResult (some (str "10.0.0.5")) :=
  c1_forwarded_first_entry_only.1 emptyResult (str "10.0.0.5")
    (str " 8.8.8.8") (by decide)

/-- The result object right after a public IPv4 value `v` has been folded
into the fresh result. -/
def seeded (v : Str) : IPInfo :=
  { ipv4 := some v, ipv6 := none, primary := v, version := IPVersion.IPv4 }

/-! ### C2 -/

/-- C2: `cf-connecting-ip` is the highest-trust source — a public IPv4 value
carried there always ends up as `primary` (and as the `ipv4` slot), whatever
the other headers carry; in particular with `cf-connecting-ip: 8.8.8.8` and
`x-forwarded-for: 1.1.1.1` the primary is `8.8.8.8`. -/
theorem c2_cf_connecting_ip_wins :
    (∀ (req : Request) (v : Str), req.cfConnectingIP = some v →
      isIPv4 v = true → isPrivateOrLocalIPv4 v = false →
      (getClientIP req).primary = v ∧ (getClientIP req).ipv4 = some v) ∧
    (getClientIP c2Req).primary = str "8.8.8.8" := by
  refine ⟨?_, by decide⟩
  intro req v hcf h4 hp
  have hne : v.isEmpty = false := isEmpty_eq_false (isIPv4_ne_nil h4)
  have h1 : processHeader emptyResult req.cfConnectingIP = seeded v := by
    rw [hcf]
    have e : processHeader emptyResult (some v) = processIP emptyResult v := by
      simp [processHeader, hne]
    rw [e]
    exact processIP_empty_ipv4 h4
  have hP1 : PubV4 (seeded v) := ⟨h4, hp, rfl⟩
  rw [getClientIP_eq, h1]
  obtain ⟨P2, e2p, e2v⟩ := processHeader_pubv4 req.trueClientIP hP1
  obtain ⟨P3, e3p, e3v⟩ := processHeader_pubv4 req.realIP P2
  obtain ⟨P4, e4p, e4v⟩ := processHeader_pubv4 req.xClientIP P3
  obtain ⟨P5, e5p, e5v⟩ := processHeader_pubv4 req.xClusterClientIP P4
  obtain ⟨P6, e6p, e6v⟩ := processForwardedList_pubv4 req.forwarded P5
  obtain ⟨P7, e7p, e7v⟩ :=
    processForwardedList_pubv4 req.xOriginalForwardedFor P6
  obtain ⟨P8, e8p, e8v⟩ := processHeader_pubv4 req.remoteAddress P7
  constructor
  · rw [e8p, e7p, e6p, e5p, e4p, e3p, e2p]
    rfl
  · rw [e8v, e7v, e6v, e5v, e4v, e3v, e2v]
    rfl

/-- Witness for C2 at the concrete request of the spec example. -/
theorem c2_cf_connecting_ip_wins_witness :
    (getClientIP c2Req).primary = str "8.8.8.8" ∧
      (getClientIP c2Req).ipv4 = some (str "8.8.8.8") :=
  c2_cf_connecting_ip_wins.1 c2Req (str "8.8.8.8") rfl (by decide) (by decide)

/-! ### C3 -/

/-- Counterexample to C3 as stated: a request carrying both
`x-real-ip: 8.8.8.8` and `x-forwarded-for: 1.1.1.1` (two distinct public
IPv4 addresses) whose resulting primary and ipv4 are *not* the `x-real-ip`
value, because the higher-priority `cf-connecting-ip: 9.9.9.9` wins. -/
theorem c3_counterexample :
    c3CexReq.realIP = some (str "8.8.8.8") ∧
    c3CexReq.forwarded = some (str "1.1.1.1") ∧
    isIPv4 (str "8.8.8.8") = true ∧
    isPrivateOrLocalIPv4 (str "8.8.8.8") = false ∧
    isIPv4 (str "1.1.1.1") = true ∧
    isPrivateOrLocalIPv4 (str "1.1.1.1") = false ∧
    str "8.8.8.8" ≠ str "1.1.1.1" ∧
    (getClientIP c3CexReq).primary ≠ str "8.8.8.8" ∧
    (getClientIP c3CexReq).ipv4 ≠ some (str "8.8.8.8") := by
  decide

/-- C3 (amended): if additionally neither `cf-connecting-ip` nor
`true-client-ip` is present, a public IPv4 in `x-real-ip` beats a distinct
public IPv4 in `x-forwarded-for`: primary and ipv4 are the `x-real-ip`
value. -/
theorem c3_real_ip_over_forwarded (req : Request) (a f : Str)
    (hcf : req.cfConnectingIP = none) (htc : req.trueClientIP = none)
    (hreal : req.realIP = some a)
    (h4a : isIPv4 a = true) (hpa : isPrivateOrLocalIPv4 a = false)
    (hfwd : req.forwarded = some f)
    (h4f : isIPv4 f = true) (hpf : isPrivateOrLocalIPv4 f = false)
    (hfa : f ≠ a) :
    (getClientIP req).primary = a ∧ (getClientIP req).ipv4 = some a := by
  rw [getClientIP_eq, hcf, htc, hreal]
  have h1 : processHeader (processHeader (processHeader emptyResult none)
      none) (some a) = seeded a := by
    show processHeader emptyResult (some a) = _
    have hnea : a.isEmpty = false := isEmpty_eq_false (isIPv4_ne_nil h4a)
    have e : processHeader emptyResult (some a) = processIP emptyResult a := by
      simp [processHeader, hnea]
    rw [e]
    exact processIP_empty_ipv4 h4a
  rw [h1]
  have hP1 : PubV4 (seeded a) := ⟨h4a, hpa, rfl⟩
  obtain ⟨P4, e4p, e4v⟩ := processHeader_pubv4 req.xClientIP hP1
  obtain ⟨P5, e5p, e5v⟩ := processHeader_pubv4 req.xClusterClientIP P4
  obtain ⟨P6, e6p, e6v⟩ := processForwardedList_pubv4 req.forwarded P5
  obtain ⟨P7, e7p, e7v⟩ :=
    processForwardedList_pubv4 req.xOriginalForwardedFor P6
  obtain ⟨P8, e8p, e8v⟩ := processHeader_pubv4 req.remoteAddress P7
  constructor
  · rw [e8p, e7p, e6p, e5p, e4p]
    rfl
  · rw [e8v, e7v, e6v, e5v, e4v]
    rfl

/-- Witness for the amended C3 at the concrete two-header request. -/
theorem c3_real_ip_over_forwarded_witness :
    (getClientIP c3WitReq).primary = str "8.8.8.8" ∧
      (getClientIP c3WitReq).ipv4 = some (str "8.8.8.8") :=
  c3_real_ip_over_forwarded c3WitReq (str "8.8.8.8") (str "1.1.1.1")
    rfl rfl rfl (by decide) (by decide) rfl (by decide) (by decide) (by decide)

end GetIp

namespace GetIp

/-! ### C5 and C6: result invariants -/

/-- C5: for every request, the Extractor's `primary` equals the sentinel
`"Unknown"` exactly when both the `ipv4` and the `ipv6` field are unset. -/
theorem c5_unknown_iff_no_addresses (req : Request) :
    (getClientIP req).primary = str "Unknown" ↔
      ((getClientIP req).ipv4 = none ∧ (getClientIP req).ipv6 = none) := by
  obtain ⟨hU, h4i, h6i⟩ := getClientIP_inv req
  cases hv : (getClientIP req).version with
  | Unknown =>
    obtain ⟨hp, h4, h6⟩ := hU hv
    simp [hp, h4, h6]
  | IPv4 =>
    obtain ⟨h4, hp4⟩ := h4i hv
    constructor
    · intro hpu
      rw [hpu] at hp4
      exact absurd hp4 (by decide)
    · intro hn
      rw [h4] at hn
      exact Option.noConfusion hn.1
  | IPv6 =>
    obtain ⟨h6, _, hnu, _, _⟩ := h6i hv
    constructor
    · intro hpu
      exact absurd hpu hnu
    · intro hn
      rw [h6] at hn
      exact Option.noConfusion hn.2

/-- C6: family consistency — whenever `version = IPv4` and the `ipv4` field
is set, `primary` equals it; symmetrically for IPv6. -/
theorem c6_version_family_consistency (req : Request) (v w : Str) :
    ((getClientIP req).version = IPVersion.IPv4 →
      (getClientIP req).ipv4 = some v → (getClientIP req).primary = v) ∧
    ((getClientIP req).version = IPVersion.IPv6 →
      (getClientIP req).ipv6 = some w → (getClientIP req).primary = w) := by
  obtain ⟨hU, h4i, h6i⟩ := getClientIP_inv req
  constructor
  · intro hv h4
    obtain ⟨h4', _⟩ := h4i hv
    rw [h4'] at h4
    exact Option.some.inj h4
  · intro hv h6
    obtain ⟨h6', _, _, _, _⟩ := h6i hv
    rw [h6'] at h6
    exact Option.some.inj h6

def c6Req4 : Request := { noReq with remoteAddress := some (str "8.8.8.8") }

def c6Req6 : Request :=
  { noReq with remoteAddress := some (str "2001:db8::1") }

/-- Witness for C6 at an IPv4-classified and an IPv6-classified request. -/
theorem c6_version_family_consistency_witness :
    (getClientIP c6Req4).primary = str "8.8.8.8" ∧
      (getClientIP c6Req6).primary = str "2001:db8::1" :=
  ⟨(c6_version_family_consistency c6Req4 (str "8.8.8.8") []).1
      (by decide) (by decide),
   (c6_version_family_consistency c6Req6 [] (str "2001:db8::1")).2
      (by decide) (by decide)⟩

/-! ### C7: the IPv4 classifier -/

/-- C7: the IPv4 classifier accepts exactly the strings in strict
dotted-quad form — four dot-separated groups of one to three digits with
value at most 255 and nothing else; any octet value above 255 or malformed
separator is rejected. -/
theorem c7_ipv4_classifier_strict_dotted_quad (l : Str) :
    isIPv4 l = dottedQuad l := by
  unfold isIPv4 dottedQuad
  rw [show octetAlt = specOctet from funext octetAlt_eq_specOctet]

/-! ### C8: the 172.16.0.0/12 boundary -/

/-- C8: on the `172.*` boundary, every address `172.p1.p2.p3` with
`16 ≤ p1 ≤ 31` classifies as private, while `172.15.255.255` and
`172.32.0.0` classify as public. -/
theorem c8_172_16_slash_12_boundary :
    (∀ p1 p2 p3 : Nat, 16 ≤ p1 → p1 ≤ 31 → p2 ≤ 255 → p3 ≤ 255 →
      isPrivateOrLocalIPv4 (mkIP 172 p1 p2 p3) = true) ∧
    isPrivateOrLocalIPv4 (str "172.15.255.255") = false ∧
    isPrivateOrLocalIPv4 (str "172.32.0.0") = false := by
  refine ⟨?_, by decide, by decide⟩
  intro p1 p2 p3 h16 h31 h2 h3
  have h4 : isIPv4 (mkIP 172 p1 p2 p3) = true :=
    isIPv4_mkIP (by omega) (by omega) h2 h3
  have hmap : (splitOnChar '.' (mkIP 172 p1 p2 p3)).map strToNat
      = [172, p1, p2, p3] := by
    rw [splitOnChar_mkIP]
    simp [strToNat_natToStr]
  simp [isPrivateOrLocalIPv4, h4, hmap, h16, h31]

/-- Witness for C8 inside the range. -/
theorem c8_172_16_slash_12_boundary_witness :
    isPrivateOrLocalIPv4 (mkIP 172 20 30 40) = true :=
  c8_172_16_slash_12_boundary.1 20 30 40 (by decide) (by decide)
    (by decide) (by decide)

/-! ### C9: the ::ffff: prefix -/

def c9Req : Request :=
  { noReq with remoteAddress := some (str "::ffff:203.0.113.5") }

/-- C9: a candidate of the shape `::ffff:<dotted-quad>` is processed exactly
like the bare dotted-quad; with peer address `::ffff:203.0.113.5` and no
headers, `ipv4` is `203.0.113.5` and `version` is IPv4. -/
theorem c9_ffff_prefix_stripped :
    (∀ (r : IPInfo) (rest : Str), isIPv4 rest = true →
      processIP r (str "::ffff:" ++ rest) = processIP r rest) ∧
    (getClientIP c9Req).ipv4 = some (str "203.0.113.5") ∧
    (getClientIP c9Req).version = IPVersion.IPv4 := by
  refine ⟨?_, by decide, by decide⟩
  intro r rest h4
  have hpre : prefixOf (str "::ffff:") (str "::ffff:" ++ rest) = true :=
    prefixOf_append_self _ _
  have hdrop : (str "::ffff:" ++ rest).drop 7 = rest := by
    rw [show str "::ffff:" ++ rest
      = ':' :: ':' :: 'f' :: 'f' :: 'f' :: 'f' :: ':' :: rest from rfl]
    rfl
  have hclL : cleanIP (str "::ffff:" ++ rest) = rest := by
    simp [cleanIP, hpre, hdrop]
  have hclR : cleanIP rest = rest := cleanIP_ipv4 h4
  have hgl : (str "::ffff:" ++ rest).isEmpty = false := rfl
  have hglu : (str "::ffff:" ++ rest) ≠ str "Unknown" := by
    intro he
    rw [show str "::ffff:" ++ rest = ':' :: (str ":ffff:" ++ rest) from rfl,
      show str "Unknown" = 'U' :: str "nknown" from rfl] at he
    injection he with h1 _
    exact absurd h1 (by decide)
  have hgr : rest.isEmpty = false := isEmpty_eq_false (isIPv4_ne_nil h4)
  have hgru : rest ≠ str "Unknown" := isIPv4_ne_unknown h4
  have g1 : ((str "::ffff:" ++ rest).isEmpty
      || decide (str "::ffff:" ++ rest = str "Unknown")) = false := by
    rw [hgl, decide_eq_false hglu]
    rfl
  have g2 : (rest.isEmpty || decide (rest = str "Unknown")) = false := by
    rw [hgr, decide_eq_false hgru]
    rfl
  simp [processIP, g1, g2, hclL, hclR, h4]

end GetIp

namespace GetIp

/-! ### C4: the fallback resolver -/

theorem tryService_some {resp : SvcResp} {ip : Str}
    (h : tryService resp = some ip) :
    isIPv4 ip = true ∧ isPrivateOrLocalIPv4 ip = false ∧
      ip.isEmpty = false := by
  cases resp with
  | failure => exact Option.noConfusion h
  | ok body =>
    simp only [tryService] at h
    by_cases hc : (!(trim body).isEmpty && isIPv4 (trim body)
        && !isPrivateOrLocalIPv4 (trim body)) = true
    · rw [if_pos hc] at h
      have hip : trim body = ip := Option.some.inj h
      rw [hip] at hc
      simp only [Bool.and_eq_true, Bool.not_eq_true'] at hc
      exact ⟨hc.1.2, hc.2, hc.1.1⟩
    · rw [if_neg hc] at h
      exact Option.noConfusion h

/-- C4: with only private/local addresses detected and fallback enabled, the
resolver consults the fixed service list in order; any accepted answer is a
valid non-private IPv4 which replaces `ipv4` and `primary` with
`version = IPv4` and `ipv6` untouched; an answer from the first service
short-circuits the rest; and if no service yields a usable answer the
original result is returned completely unchanged (no failure can escape: the
resolver is total and returns `none` on every failure path). -/
theorem c4_fallback_replace_or_unchanged (info : IPInfo)
    (net : Str → SvcResp) (hpriv : hasOnlyPrivateIPs info = true) :
    (∀ ip : Str, getPublicIPFallback net = some ip →
      isIPv4 ip = true ∧ isPrivateOrLocalIPv4 ip = false ∧
      applyFallback true net info =
        { ipv4 := some ip, ipv6 := info.ipv6, primary := ip
          version := IPVersion.IPv4 }) ∧
    (getPublicIPFallback net = none → applyFallback true net info = info) ∧
    (∀ ip : Str,
      tryService (net (str "https://api.ipify.org?format=text")) = some ip →
      getPublicIPFallback net = some ip) := by
  refine ⟨?_, ?_, ?_⟩
  · intro ip hsome
    have hval : isIPv4 ip = true ∧ isPrivateOrLocalIPv4 ip = false ∧
        ip.isEmpty = false := by
      simp only [getPublicIPFallback, fallbackServices,
        tryFallbackServices] at hsome
      cases h1 : tryService (net (str "https://api.ipify.org?format=text")) with
      | some x =>
        simp only [h1] at hsome
        rw [← Option.some.inj hsome]
        exact tryService_some h1
      | none =>
        simp only [h1] at hsome
        cases h2 : tryService (net (str "https://ipinfo.io/ip")) with
        | some x =>
          simp only [h2] at hsome
          rw [← Option.some.inj hsome]
          exact tryService_some h2
        | none =>
          simp only [h2] at hsome
          cases h3 : tryService (net (str "https://ifconfig.me/ip")) with
          | some x =>
            simp only [h3] at hsome
            rw [← Option.some.inj hsome]
            exact tryService_some h3
          | none =>
            simp only [h3] at hsome
            exact Option.noConfusion hsome
    refine ⟨hval.1, hval.2.1, ?_⟩
    simp [applyFallback, hpriv, hsome, hval.2.2]
  · intro hnone
    simp [applyFallback, hpriv, hnone]
  · intro ip h1
    simp only [getPublicIPFallback, fallbackServices, tryFallbackServices, h1]

/-- The private-only result and the stubbed network used by the C4
witness. -/
def c4Info : IPInfo :=
  { ipv4 := some (str "10.0.0.5"), ipv6 := none, primary := str "10.0.0.5"
    version := IPVersion.IPv4 }

def c4Net : Str → SvcResp := fun s =>
  if s = str "https://ipinfo.io/ip" then SvcResp.ok (str "198.51.100.7")
  else SvcResp.failure

def c4NetFail : Str → SvcResp := fun _ => SvcResp.failure

/-- Witness for C4: a stubbed service returning `198.51.100.7` replaces the
private-only result, and an all-failing network leaves it unchanged. -/
theorem c4_fallback_replace_or_unchanged_witness :
    applyFallback true c4Net c4Info =
      { ipv4 := some (str "198.51.100.7"), ipv6 := none
        primary := str "198.51.100.7", version := IPVersion.IPv4 } ∧
    applyFallback true c4NetFail c4Info = c4Info :=
  ⟨((c4_fallback_replace_or_unchanged c4Info c4Net (by decide)).1
      (str "198.51.100.7") (by decide)).2.2,
   (c4_fallback_replace_or_unchanged c4Info c4NetFail (by decide)).2.1
      (by decide)⟩

/-! ### C10: determinism -/

/-- C10: the Extractor is a pure function of the eight candidate sources —
two requests with identical header values and peer address yield identical
results. -/
theorem c10_extractor_deterministic (r1 r2 : Request)
    (h1 : r1.cfConnectingIP = r2.cfConnectingIP)
    (h2 : r1.trueClientIP = r2.trueClientIP)
    (h3 : r1.realIP = r2.realIP)
    (h4 : r1.xClientIP = r2.xClientIP)
    (h5 : r1.xClusterClientIP = r2.xClusterClientIP)
    (h6 : r1.forwarded = r2.forwarded)
    (h7 : r1.xOriginalForwardedFor = r2.xOriginalForwardedFor)
    (h8 : r1.remoteAddress = r2.remoteAddress) :
    getClientIP r1 = getClientIP r2 := by
  cases r1
  cases r2
  simp only at h1 h2 h3 h4 h5 h6 h7 h8
  subst h1 h2 h3 h4 h5 h6 h7 h8
  rfl

/-- Witness for C10 at two separately constructed but identical requests. -/
theorem c10_extractor_deterministic_witness :
    getClientIP c2Req = getClientIP
      { noReq with
        cfConnectingIP := some (str "8.8.8.8")
        forwarded := some (str "1.1.1.1") } :=
  c10_extractor_deterministic _ _ rfl rfl rfl rfl rfl rfl rfl rfl

end GetIp

namespace GetIp

/-- Witness for C9 at the concrete candidate `::ffff:203.0.113.5`. -/
theorem c9_ffff_prefix_stripped_witness :
    processIP emptyResult (str "::ffff:" ++ str "203.0.113.5")
      = processIP emptyResult (str "203.0.113.5") :=
  c9_ffff_prefix_stripped.1 emptyResult (str "203.0.113.5") (by decide)

end GetIp
